import Mathlib

/-!
Shallow embedding of the vidbeamer server (`src/server.ts`) and its browser
client (`src/unnamed/part_000`, the React `App`): an ephemeral video store.
The server stores each upload under `uuidv4() + ext` via `multer.diskStorage`
(lines 44-57), serves a viewer page at `GET /v/:id` by joining the id onto the
upload directory (lines 63-67), answers `POST /api/upload` with the status
codes of lines 161-183, and a `setInterval` sweep (lines 22-41) deletes files
whose modification-time age exceeds one hour.
-/

namespace VidBeamer

/-! ## Node `path.extname` (posix), used at `src/server.ts:49` -/

/-- Scan state of Node's `path.extname` loop: the index of the last dot seen
(`startDot`), the start of the basename once a separator is crossed
(`startPart`), one past the last non-separator character (`endIdx`, `-1`
encoded as `none`; `matchedSlash` of the original is `endIdx.isNone`), and
`preDotState`. -/
structure ExtScan where
  startDot : Option Nat := none
  startPart : Nat := 0
  endIdx : Option Nat := none
  preDotState : Int := 0
  deriving DecidableEq

/-- The loop of Node's `path.extname`, walking the characters from index
`i - 1` down to `0`, translated statement by statement. -/
def extScanGo (s : List Char) : Nat → ExtScan → ExtScan
  | 0, st => st
  | i + 1, st =>
    let c := s.getD i ' '
    if c = '/' then
      if st.endIdx.isSome then { st with startPart := i + 1 }
      else extScanGo s i st
    else
      let st1 := if st.endIdx.isNone then { st with endIdx := some (i + 1) } else st
      let st2 :=
        if c = '.' then
          match st1.startDot with
          | none => { st1 with startDot := some i }
          | some _ => if st1.preDotState ≠ 1 then { st1 with preDotState := 1 } else st1
        else if st1.startDot.isSome then { st1 with preDotState := -1 } else st1
      extScanGo s i st2

/-- Node's posix `path.extname`: the substring from the last dot of the final
path component to its end, or `""` when the component has no dot, starts with
its only dot, or is `".."`. -/
def extname (p : String) : String :=
  let s := p.data
  let st := extScanGo s s.length {}
  match st.startDot, st.endIdx with
  | some sd, some e =>
    if st.preDotState = 0 ∨ (st.preDotState = 1 ∧ sd = e - 1 ∧ sd = st.startPart + 1) then ""
    else ⟨(s.take e).drop sd⟩
  | _, _ => ""

/-! ## `multer.diskStorage.filename` (`src/server.ts:48-51`) -/

/-- The stored name minted in `filename`: `uuidv4() + ext` where
`ext = path.extname(file.originalname) || '.mp4'` (JS `||`: the empty string
falls back to `'.mp4'`). -/
def mkFilename (uuid : String) (originalname : String) : String :=
  let ext := extname originalname
  uuid ++ (if ext = "" then ".mp4" else ext)

/-! ## `POST /api/upload` (`src/server.ts:161-183`) -/

/-- A file of the incoming multipart request as multer sees it. -/
structure UploadedFile where
  originalname : String
  mimetype : String
  size : Nat
  deriving DecidableEq

/-- One upload request: the single `video` file field when present, whether
multer hits a request-shape error (a `MulterError` other than the size limit,
e.g. `LIMIT_UNEXPECTED_FILE`), and whether the underlying storage fails with a
non-multer error. -/
structure UploadReq where
  file : Option UploadedFile
  malformedField : Bool
  storageFailure : Bool
  deriving DecidableEq

/-- What `req.file` carries after multer ran: the minted disk filename. -/
structure StoredFile where
  filename : String
  deriving DecidableEq

/-- Result of `upload.single("video")(req, res, cb)`: success with the
optional stored file, a `MulterError` with its `code` and `message`, or any
other error. -/
inductive MulterOutcome where
  | success (file : Option StoredFile)
  | multerError (code : String) (message : String)
  | unknownError
  deriving DecidableEq

/-- The `limits.fileSize` of `src/server.ts:56`: `500 * 1024 * 1024`. -/
def sizeLimit : Nat := 500 * 1024 * 1024

/-- Multer processing of one request with the configured `diskStorage` and
size limit: storage errors surface as non-multer errors, request-shape
violations as a `MulterError`, an over-limit file as `LIMIT_FILE_SIZE`, and
otherwise the file (when the field is present) is written to disk under
`mkFilename uuid originalname`. The declared `mimetype` is never consulted:
the server configures no `fileFilter`. -/
def multerProcess (uuid : String) (req : UploadReq) : MulterOutcome :=
  if req.storageFailure then .unknownError
  else if req.malformedField then .multerError "LIMIT_UNEXPECTED_FILE" "Unexpected field"
  else
    match req.file with
    | none => .success none
    | some f =>
      if f.size > sizeLimit then .multerError "LIMIT_FILE_SIZE" "File too large"
      else .success (some ⟨mkFilename uuid f.originalname⟩)

/-- The JSON bodies the route sends: an `error` field, or `url`/`filename`. -/
structure JsonBody where
  error : Option String
  url : Option String
  filename : Option String
  deriving DecidableEq

/-- An HTTP response: status code and JSON body. -/
structure HttpResponse where
  status : Nat
  body : JsonBody
  deriving DecidableEq

/-- The two handlers of `app.post("/api/upload")` (`src/server.ts:161-183`):
`LIMIT_FILE_SIZE` gives 413, any other `MulterError` 400 with its message, a
non-multer error 500, a missing `req.file` 400, and success 200 with
`url = "/v/" + req.file.filename` and `filename = req.file.filename`. -/
def respondUpload : MulterOutcome → HttpResponse
  | .multerError code msg =>
    if code = "LIMIT_FILE_SIZE" then
      ⟨413, ⟨some "File is too large. Maximum size is 500MB.", none, none⟩⟩
    else ⟨400, ⟨some msg, none, none⟩⟩
  | .unknownError => ⟨500, ⟨some "An unknown error occurred during upload.", none, none⟩⟩
  | .success none => ⟨400, ⟨some "No video file provided", none, none⟩⟩
  | .success (some f) => ⟨200, ⟨none, some ("/v/" ++ f.filename), some f.filename⟩⟩

/-- The whole `POST /api/upload` pipeline. -/
def postUpload (uuid : String) (req : UploadReq) : HttpResponse :=
  respondUpload (multerProcess uuid req)

/-! ## `GET /v/:id` path resolution (`src/server.ts:63-67`)

The handler computes `filePath = path.join(uploadDir, id)` with the raw route
parameter (which, after URL decoding, may contain `/` and `..`). Paths are
modelled as lists of segments; `uploadDir` is an absolute directory given as
its segment list, and `path.join` followed by normalization is the usual
segment-stack fold: `.` and empty segments vanish, `..` pops. -/

/-- One normalization step of `path.join`'s segment walk. -/
def joinStep (stack : List String) (seg : String) : List String :=
  if seg = "" ∨ seg = "." then stack
  else if seg = ".." then stack.dropLast
  else stack ++ [seg]

/-- Join a list of segments onto an absolute root, resolving `.` and `..`. -/
def joinSegs (root : List String) (segs : List String) : List String :=
  segs.foldl joinStep root

/-- Split a character list into the segments between `/` separators
(the segment view of the string `path.join` concatenates and normalizes). -/
def splitSegsGo : List Char → List Char → List String
  | [], acc => [⟨acc.reverse⟩]
  | c :: cs, acc =>
    if c = '/' then ⟨acc.reverse⟩ :: splitSegsGo cs [] else splitSegsGo cs (c :: acc)

/-- The `/`-separated segments of an id. -/
def splitSegs (id : String) : List String :=
  splitSegsGo id.data []

/-- The `filePath` of the `/v/:id` handler: `path.join(uploadDir, id)` where
the id is split at `/` into segments. No rejection or sanitization occurs. -/
def resolveVPath (root : List String) (id : String) : List String :=
  joinSegs root (splitSegs id)

/-- A path lies under the storage root when the root is its leading run of
segments. -/
def underRoot (root p : List String) : Prop :=
  p.take root.length = root

/-! ## `multer.diskStorage` write behaviour (`src/server.ts:44-57`)

`diskStorage` opens `fs.createWriteStream` directly on the final path
`uploadDir/<uuid + ext>` and pipes the request into it: there is no staging
name and no rename. A concurrent reader of that name therefore observes the
file sizes below while a put streams its chunks. -/

/-- All byte counts a file reaches while a list of chunks is appended:
`0` at creation, then every running total. -/
def runningSums : List Nat → List Nat
  | [] => [0]
  | c :: cs => 0 :: (runningSums cs).map (fun x => c + x)

/-- The sizes observable at the final filename over the course of a
`diskStorage` put: `none` before the write stream is opened, then the file
exists with each running total of the chunks, ending at the full size. -/
def diskStoragePutStates (chunks : List Nat) : List (Option Nat) :=
  none :: (runningSums chunks).map some

/-! ## The cleanup sweep (`src/server.ts:17-41`) -/

/-- `CLEANUP_INTERVAL = 15 * 60 * 1000` (sweep every 15 minutes). -/
def CLEANUP_INTERVAL : Int := 15 * 60 * 1000

/-- `MAX_AGE = 60 * 60 * 1000` (files older than 1 hour are deleted). -/
def MAX_AGE : Int := 60 * 60 * 1000

/-- One entry of the upload directory as the sweep's callbacks see it:
its name, the `stat` result (`none` when `fs.stat` fails, else `mtimeMs`),
and whether `fs.unlink` would succeed. -/
structure DirEntry where
  name : String
  statResult : Option Int
  unlinkOk : Bool
  deriving DecidableEq

/-- What the sweep does with one directory entry. -/
inductive EntryAction where
  | statFailedSkip
  | kept
  | deleted
  | unlinkFailed
  deriving DecidableEq

/-- The per-entry body of the sweep (`src/server.ts:31-38`): a failed `stat`
returns early; otherwise the file is unlinked exactly when
`now - stats.mtimeMs > MAX_AGE`, and a failed unlink leaves the file. -/
def processEntry (now : Int) (e : DirEntry) : EntryAction :=
  match e.statResult with
  | none => .statFailedSkip
  | some m =>
    if now - m > MAX_AGE then
      if e.unlinkOk then .deleted else .unlinkFailed
    else .kept

/-- One sweep over a directory snapshot: `files.forEach` applies the
per-entry body to every entry; no entry's outcome feeds into another's, and
every callback returns normally, so the sweep is a total function. -/
def sweepActions (now : Int) (entries : List DirEntry) : List EntryAction :=
  entries.map (processEntry now)

/-- A stored file for the store-level view of the sweep: name and `mtimeMs`. -/
structure FileEntry where
  name : String
  mtimeMs : Int
  deriving DecidableEq

/-- The store left by one sweep at time `now` when stat and unlink succeed:
exactly the entries with `now - mtimeMs > MAX_AGE` are removed. -/
def sweepStore (now : Int) (store : List FileEntry) : List FileEntry :=
  store.filter (fun e => !(decide (now - e.mtimeMs > MAX_AGE)))

/-- The store after a sequence of sweeps at the given times. -/
def runSweeps (times : List Int) (store : List FileEntry) : List FileEntry :=
  times.foldl (fun st t => sweepStore t st) store

/-- An id reads as present exactly when some stored entry bears it
(`fs.existsSync` at `src/server.ts:67`). -/
def present (id : String) (store : List FileEntry) : Prop :=
  ∃ e ∈ store, e.name = id

instance (id : String) (store : List FileEntry) : Decidable (present id store) := by
  unfold present; infer_instance

/-! ## The client's upload guard (`src/unnamed/part_000`, `handleFile`) -/

/-- What `handleFile` does with a chosen file. -/
inductive ClientOutcome where
  | invalidTypeError
  | tooLargeError
  | sendsUpload
  deriving DecidableEq

/-- Character-list test that `pre` is a leading run of `s`. -/
def charsLead : List Char → List Char → Bool
  | [], _ => true
  | _ :: _, [] => false
  | p :: ps, c :: cs => p = c && charsLead ps cs

/-- JS `s.startsWith(pre)`. -/
def strStarts (s pre : String) : Bool :=
  charsLead pre.data s.data

/-- The browser-side guard: a declared type not starting with `video/` sets
an error and never uploads; an over-500MB file likewise; otherwise the file
is POSTed to `/api/upload`. -/
def handleFile (declaredType : String) (size : Nat) : ClientOutcome :=
  if !(strStarts declaredType "video/") then .invalidTypeError
  else if size > 500 * 1024 * 1024 then .tooLargeError
  else .sendsUpload

/-- A 36-character uuid, the shape `uuidv4()` mints. -/
def uuidEx : String := "123e4567-e89b-42d3-a456-426614174000"

/-! ## Helper lemmas -/

/-- Dropping the head of a nonempty-tailed list keeps its last element. -/
theorem getLast?_cons_ne {α : Type _} (a : α) (l : List α) (h : l ≠ []) :
    (a :: l).getLast? = l.getLast? := by
  cases l with
  | nil => exact absurd rfl h
  | cons b t => rfl

/-- A put trace always has at least the creation state. -/
theorem runningSums_ne_nil (chunks : List Nat) : runningSums chunks ≠ [] := by
  cases chunks <;> simp [runningSums]

/-- The last running total is the full sum. -/
theorem runningSums_getLast? : ∀ chunks : List Nat,
    (runningSums chunks).getLast? = some chunks.sum
  | [] => rfl
  | c :: cs => by
    have ih := runningSums_getLast? cs
    have hne : (runningSums cs).map (fun x => c + x) ≠ [] := by
      simp [runningSums_ne_nil]
    calc (runningSums (c :: cs)).getLast?
        = ((runningSums cs).map (fun x => c + x)).getLast? := by
          rw [runningSums, getLast?_cons_ne _ _ hne]
      _ = some (c + cs.sum) := by rw [List.getLast?_map, ih]; rfl
      _ = some (c :: cs).sum := by simp

/-- The empty file (size 0) occurs in every put trace. -/
theorem zero_mem_runningSums (chunks : List Nat) : 0 ∈ runningSums chunks := by
  cases chunks <;> simp [runningSums]

/-- Every value of a put trace is the size of some chunk run already written. -/
theorem mem_runningSums : ∀ (chunks : List Nat), ∀ x ∈ runningSums chunks,
    ∃ k, k ≤ chunks.length ∧ x = (chunks.take k).sum := by
  intro chunks
  induction chunks with
  | nil =>
    intro x hx
    simp [runningSums] at hx
    exact ⟨0, by simp, by simp [hx]⟩
  | cons c cs ih =>
    intro x hx
    simp only [runningSums, List.mem_cons, List.mem_map] at hx
    rcases hx with rfl | ⟨y, hy, rfl⟩
    · exact ⟨0, by simp, by simp⟩
    · obtain ⟨k, hk, rfl⟩ := ih y hy
      exact ⟨k + 1, by simpa using hk, by simp⟩

/-- Joining segments that are plain names (no empty, `.` or `..` segment)
appends them to the root. -/
theorem joinSegs_clean (segs : List String) :
    ∀ root, (∀ s ∈ segs, s ≠ "" ∧ s ≠ "." ∧ s ≠ "..") → joinSegs root segs = root ++ segs := by
  induction segs with
  | nil => intro root _; simp [joinSegs]
  | cons s ss ih =>
    intro root h
    have hs := h s (by simp)
    have hrest : ∀ x ∈ ss, x ≠ "" ∧ x ≠ "." ∧ x ≠ ".." := fun x hx => h x (by simp [hx])
    have hcons : joinSegs root (s :: ss) = joinSegs (joinStep root s) ss := rfl
    have hstep : joinStep root s = root ++ [s] := by
      simp [joinStep, hs.1, hs.2.1, hs.2.2]
    rw [hcons, ih (joinStep root s) hrest, hstep]
    simp

/-- Membership in a swept store: kept exactly when not expired at sweep time. -/
theorem mem_sweepStore {now : Int} {store : List FileEntry} {e : FileEntry} :
    e ∈ sweepStore now store ↔ e ∈ store ∧ now - e.mtimeMs ≤ MAX_AGE := by
  simp [sweepStore, List.mem_filter, not_lt]

/-- Sweeps only ever remove entries. -/
theorem mem_runSweeps_subset : ∀ (times : List Int) (store : List FileEntry) (e : FileEntry),
    e ∈ runSweeps times store → e ∈ store := by
  intro times
  induction times with
  | nil => intro store e h; exact h
  | cons t ts ih =>
    intro store e h
    have hx : e ∈ sweepStore t store := ih (sweepStore t store) e h
    exact (mem_sweepStore.1 hx).1

/-- An entry fresh at every sweep time survives all the sweeps. -/
theorem mem_runSweeps_of_fresh : ∀ (times : List Int) (store : List FileEntry) (e : FileEntry),
    e ∈ store → (∀ t ∈ times, t - e.mtimeMs ≤ MAX_AGE) → e ∈ runSweeps times store := by
  intro times
  induction times with
  | nil => intro store e he _; exact he
  | cons t ts ih =>
    intro store e he h
    exact ih (sweepStore t store) e (mem_sweepStore.2 ⟨he, h t (by simp)⟩)
      (fun u hu => h u (by simp [hu]))

/-- A nonempty string has length at least one. -/
theorem one_le_length_of_ne_empty (s : String) (h : s ≠ "") : 1 ≤ s.length := by
  cases s with
  | mk data =>
    cases data with
    | nil => exact absurd rfl h
    | cons c cs => simp [String.length]

/-! ## Claim theorems -/

/-- C1 (counterexample): the claim that an id containing `../` is rejected or
neutralized fails. The `/v/:id` handler resolves `path.join(uploadDir, id)`
with no check, so the id `../secret` resolves to a path outside the storage
root (the root is not a leading run of the resolved path's segments). -/
theorem c1_path_counterexample :
    resolveVPath ["home", "user", "app", "uploads"] "../secret"
      = ["home", "user", "app", "secret"] ∧
    ¬ underRoot ["home", "user", "app", "uploads"]
        (resolveVPath ["home", "user", "app", "uploads"] "../secret") := by
  constructor
  · decide
  · intro h
    rw [underRoot] at h
    revert h
    decide

/-- C1 (amended): the handler performs no rejection at all; an id whose
segments are all plain names (no empty, `.` or `..` segment) resolves to that
name under the root and stays under the root, and in particular a
separator-free id other than `.`/`..` resolves to exactly one entry of the
upload directory — but nothing neutralizes traversal segments, as the
counterexample shows. -/
theorem c1_path_amended :
    (∀ (root segs : List String), (∀ s ∈ segs, s ≠ "" ∧ s ≠ "." ∧ s ≠ "..") →
        joinSegs root segs = root ++ segs ∧ underRoot root (joinSegs root segs)) ∧
    (∀ (root : List String) (id : String), splitSegs id = [id] →
        id ≠ "" → id ≠ "." → id ≠ ".." →
        resolveVPath root id = root ++ [id] ∧ underRoot root (resolveVPath root id)) := by
  have main : ∀ (root segs : List String), (∀ s ∈ segs, s ≠ "" ∧ s ≠ "." ∧ s ≠ "..") →
      joinSegs root segs = root ++ segs ∧ underRoot root (joinSegs root segs) := by
    intro root segs h
    have he := joinSegs_clean segs root h
    refine ⟨he, ?_⟩
    rw [underRoot, he, List.take_left]
  constructor
  · exact main
  · intro root id hsplit h1 h2 h3
    have hr : resolveVPath root id = joinSegs root [id] := by rw [resolveVPath, hsplit]
    have hm := main root [id] (by intro s hse; simp at hse; subst hse; exact ⟨h1, h2, h3⟩)
    rw [hr]
    exact hm

/-- C1 (witness): a plain id resolves to one entry directly under the root. -/
theorem c1_path_witness :
    resolveVPath ["opt", "uploads"] "abc.mp4" = ["opt", "uploads"] ++ ["abc.mp4"] :=
  (c1_path_amended.2 ["opt", "uploads"] "abc.mp4" (by decide) (by decide) (by decide)
    (by decide)).1

/-- C2 (counterexample): the claim that a concurrent reader sees either no
file or the complete file fails. During a `diskStorage` put of chunks
`[5, 7]` (final size 12) the final name passes through the observable states
`none, some 0, some 5, some 12`: a reader can see a zero-length file and a
5-byte partial file under the final name. -/
theorem c2_put_counterexample :
    some 5 ∈ diskStoragePutStates [5, 7] ∧
    (diskStoragePutStates [5, 7]).getLast? = some (some 12) ∧
    (some (5 : Nat) ≠ none) ∧ (some (5 : Nat) ≠ some 12) := by decide

/-- C2 (amended): `diskStorage` writes straight to the final name, so while a
put streams its chunks a concurrent reader observes either no file or the
file at some intermediate running size (the sizes of the prefixes of the
chunk sequence, including the zero-length file at creation); only once the
put has completed is the observable state the complete file of final size. -/
theorem c2_put_amended : ∀ chunks : List Nat,
    ((diskStoragePutStates chunks).getLast? = some (some chunks.sum)) ∧
    (some 0 ∈ diskStoragePutStates chunks) ∧
    (∀ s ∈ diskStoragePutStates chunks,
        s = none ∨ ∃ k, k ≤ chunks.length ∧ s = some ((chunks.take k).sum)) := by
  intro chunks
  refine ⟨?_, ?_, ?_⟩
  · have hne : (runningSums chunks).map some ≠ [] := by simp [runningSums_ne_nil]
    rw [diskStoragePutStates, getLast?_cons_ne _ _ hne, List.getLast?_map,
      runningSums_getLast?]
    rfl
  · simp only [diskStoragePutStates, List.mem_cons, List.mem_map]
    exact Or.inr ⟨0, zero_mem_runningSums chunks, rfl⟩
  · intro s hs
    simp only [diskStoragePutStates, List.mem_cons, List.mem_map] at hs
    rcases hs with rfl | ⟨y, hy, rfl⟩
    · exact Or.inl rfl
    · obtain ⟨k, hk, rfl⟩ := mem_runningSums chunks y hy
      exact Or.inr ⟨k, hk, rfl⟩

/-- C2 (witness): an observation during the put of `[3, 4]` is a prefix sum. -/
theorem c2_put_witness :
    some 3 = none ∨ ∃ k, k ≤ [3, 4].length ∧ some 3 = some (([3, 4].take k).sum) :=
  (c2_put_amended [3, 4]).2.2 (some 3) (by decide)

/-- C3 (counterexample): the claim that a sweep at or after `T + TTL` removes
the asset fails at the boundary. The sweep deletes only when
`now - mtimeMs > MAX_AGE` holds strictly, so a sweep at exactly `T + TTL`
(here `now = 3600000` for a file of mtime 0) leaves the file present. -/
theorem c3_ttl_counterexample :
    sweepStore ((0 : Int) + MAX_AGE) [⟨"a", 0⟩] = [⟨"a", 0⟩] ∧
    present "a" (sweepStore ((0 : Int) + MAX_AGE) [⟨"a", 0⟩]) := by
  constructor <;> decide

/-- C3 (amended): an asset of mtime `T` is present at every read strictly
before `T + TTL` no matter which sweeps ran before the read (a sweep at or
before the read time never expires it); once some sweep runs strictly after
`T + TTL` the asset is absent for all subsequent reads; and on the 15-minute
sweep schedule some sweep time lands in the half-open window
`(T + TTL, T + TTL + interval]`, so guaranteed absence lags TTL by at most
one sweep interval. -/
theorem c3_ttl_amended :
    (∀ (T r : Int) (times : List Int) (rest : List FileEntry) (id : String),
        (∀ t ∈ times, t ≤ r) → r < T + MAX_AGE →
        present id (runSweeps times (⟨id, T⟩ :: rest))) ∧
    (∀ (id : String) (T : Int) (store : List FileEntry) (pre post : List Int) (t : Int),
        (∀ e ∈ store, e.name = id → e.mtimeMs = T) → T + MAX_AGE < t →
        ¬ present id (runSweeps (pre ++ t :: post) store)) ∧
    (∀ s T : Int, s ≤ T + MAX_AGE + CLEANUP_INTERVAL →
        ∃ k : Int, 0 ≤ k ∧ T + MAX_AGE < s + k * CLEANUP_INTERVAL ∧
          s + k * CLEANUP_INTERVAL ≤ T + MAX_AGE + CLEANUP_INTERVAL) := by
  refine ⟨?_, ?_, ?_⟩
  · intro T r times rest id hread hfresh
    refine ⟨⟨id, T⟩, ?_, rfl⟩
    exact mem_runSweeps_of_fresh times _ _ (by simp)
      (fun t ht => by have := hread t ht; simp; omega)
  · intro id T store pre post t hmt hexp hpres
    obtain ⟨e, he, hname⟩ := hpres
    rw [runSweeps, List.foldl_append] at he
    have he2 : e ∈ sweepStore t (runSweeps pre store) :=
      mem_runSweeps_subset post _ e he
    obtain ⟨he3, hage⟩ := mem_sweepStore.1 he2
    have he4 : e ∈ store := mem_runSweeps_subset pre store e he3
    have hT : e.mtimeMs = T := hmt e he4 hname
    rw [hT] at hage
    omega
  · intro s T h
    by_cases hs : T + MAX_AGE < s
    · exact ⟨0, le_refl 0, by simpa using hs, by simpa using h⟩
    · refine ⟨(T + MAX_AGE - s) / CLEANUP_INTERVAL + 1, ?_, ?_, ?_⟩ <;>
        simp only [MAX_AGE, CLEANUP_INTERVAL] at * <;> omega

/-- C3 (witness): a file of mtime 0 is still present after a sweep at time 10
when read at time 20, well within the TTL. -/
theorem c3_ttl_witness :
    present "a" (runSweeps [10] [⟨"a", 0⟩]) :=
  c3_ttl_amended.1 0 20 [10] [] "a" (by decide) (by decide)

/-- C4 (counterexample): the claim that the server rejects non-video declared
media types fails. An upload declaring `application/pdf` is stored under a
minted name and answered with 200; `application/pdf` does not start with
`video/`. -/
theorem c4_type_counterexample :
    (postUpload "u" ⟨some ⟨"doc.pdf", "application/pdf", 100⟩, false, false⟩).status = 200 ∧
    (multerProcess "u" ⟨some ⟨"doc.pdf", "application/pdf", 100⟩, false, false⟩
        = .success (some ⟨"u.pdf"⟩)) ∧
    strStarts "application/pdf" "video/" = false := by decide

/-- C4 (amended): the permissive `video/` prefix check lives only in the
browser client's `handleFile`, which refuses to POST a file whose declared
type does not start with `video/`; the server itself consults the declared
media type nowhere — its response is identical for any two uploads differing
only in mimetype. -/
theorem c4_type_amended :
    (∀ (t : String) (sz : Nat), strStarts t "video/" = false →
        handleFile t sz = .invalidTypeError) ∧
    (∀ (uuid o m m' : String) (sz : Nat) (mf sf : Bool),
        postUpload uuid ⟨some ⟨o, m, sz⟩, mf, sf⟩
          = postUpload uuid ⟨some ⟨o, m', sz⟩, mf, sf⟩) := by
  constructor
  · intro t sz h; simp [handleFile, h]
  · intro uuid o m m' sz mf sf; rfl

/-- C4 (witness): the client refuses a PDF. -/
theorem c4_type_witness : handleFile "application/pdf" 100 = .invalidTypeError :=
  c4_type_amended.1 "application/pdf" 100 (by decide)

/-- C5 (counterexample): the claim that no part of the stored identifier is
derived from the uploader's original filename fails. With the same minted
uuid, originals `a.webm` and `a.avi` yield the distinct stored identifiers
`u.webm` and `u.avi`: the identifier's suffix exposes the original
extension. -/
theorem c5_id_counterexample :
    mkFilename "u" "a.webm" = "u.webm" ∧ mkFilename "u" "a.avi" = "u.avi" ∧
    ("u.webm" : String) ≠ "u.avi" := by decide

/-- C5 (amended): the stored identifier is the minted uuid followed by a
suffix that depends on the original filename only through its extension
(defaulting to `.mp4`): the random part is filename-independent, but the
extension part is derived from the original filename. -/
theorem c5_id_amended :
    (∀ uuid o : String,
        mkFilename uuid o = uuid ++ (if extname o = "" then ".mp4" else extname o)) ∧
    (∀ uuid o₁ o₂ : String, extname o₁ = extname o₂ →
        mkFilename uuid o₁ = mkFilename uuid o₂) := by
  constructor
  · intro uuid o; rfl
  · intro uuid o₁ o₂ h; simp [mkFilename, h]

/-- C5 (witness): same extension, same stored identifier. -/
theorem c5_id_witness : mkFilename "u" "a.mov" = mkFilename "u" "b.mov" :=
  c5_id_amended.2 "u" "a.mov" "b.mov" (by decide)

/-- C6 (confirmed): an upload over the 500 MiB ceiling is answered 413 with a
JSON error body; a missing file field, and any other multer-detected request
violation, is answered 400 with a JSON error body; any other storage failure
is answered 500 with a JSON error body; and the ceiling is
`500 * 1024 * 1024` bytes. -/
theorem c6_statuses :
    (∀ (uuid : String) (f : UploadedFile), f.size > sizeLimit →
        (postUpload uuid ⟨some f, false, false⟩).status = 413 ∧
        (postUpload uuid ⟨some f, false, false⟩).body.error
          = some "File is too large. Maximum size is 500MB.") ∧
    (∀ uuid : String, (postUpload uuid ⟨none, false, false⟩).status = 400 ∧
        (postUpload uuid ⟨none, false, false⟩).body.error = some "No video file provided") ∧
    (∀ (uuid : String) (req : UploadReq), req.malformedField = true → req.storageFailure = false →
        (postUpload uuid req).status = 400 ∧ (postUpload uuid req).body.error.isSome = true) ∧
    (∀ (uuid : String) (req : UploadReq), req.storageFailure = true →
        (postUpload uuid req).status = 500 ∧
        (postUpload uuid req).body.error = some "An unknown error occurred during upload.") ∧
    sizeLimit = 500 * 1024 * 1024 := by
  refine ⟨?_, ?_, ?_, ?_, rfl⟩
  · intro uuid f h
    constructor <;> simp [postUpload, multerProcess, respondUpload, h]
  · intro uuid
    constructor <;> simp [postUpload, multerProcess, respondUpload]
  · intro uuid req h1 h2
    constructor <;> simp [postUpload, multerProcess, respondUpload, h1, h2]
  · intro uuid req h
    constructor <;> simp [postUpload, multerProcess, respondUpload, h]

/-- C6 (witness): a request with no file field is answered 400. -/
theorem c6_statuses_witness :
    (postUpload "u" ⟨none, false, false⟩).status = 400 ∧
    (postUpload "u" ⟨none, false, false⟩).body.error = some "No video file provided" :=
  c6_statuses.2.1 "u"

/-- C7 (counterexample): the claim that `url` equals `/v/` followed by the
minted id (with `filename` the id plus extension) fails: the code puts the
whole stored filename, id plus extension, after `/v/`, so for a 36-character
uuid and original `clip.webm` the url is `/v/<uuid>.webm`, which differs from
`/v/<uuid>`. -/
theorem c7_url_counterexample :
    (postUpload uuidEx ⟨some ⟨"clip.webm", "video/webm", 1000⟩, false, false⟩).body.url
        = some ("/v/" ++ uuidEx ++ ".webm") ∧
    (postUpload uuidEx ⟨some ⟨"clip.webm", "video/webm", 1000⟩, false, false⟩).body.filename
        = some (uuidEx ++ ".webm") ∧
    uuidEx.length = 36 ∧
    ("/v/" ++ uuidEx ++ ".webm" : String) ≠ "/v/" ++ uuidEx := by decide

/-- C7 (amended): a successful upload is answered 200 with
`url = "/v/" ++ filename` and `filename` the stored name, which is the minted
uuid followed by the extension; the path segment after `/v/` is therefore the
full stored filename, at least 37 characters for a 36-character uuid. -/
theorem c7_url_amended : ∀ (uuid o m : String) (sz : Nat), sz ≤ sizeLimit →
    ((postUpload uuid ⟨some ⟨o, m, sz⟩, false, false⟩).status = 200 ∧
     (postUpload uuid ⟨some ⟨o, m, sz⟩, false, false⟩).body.url
        = some ("/v/" ++ mkFilename uuid o) ∧
     (postUpload uuid ⟨some ⟨o, m, sz⟩, false, false⟩).body.filename
        = some (mkFilename uuid o) ∧
     (uuid.length = 36 → 37 ≤ (mkFilename uuid o).length)) := by
  intro uuid o m sz hsz
  have hgt : ¬ (sz > sizeLimit) := by omega
  refine ⟨?_, ?_, ?_, ?_⟩
  · simp [postUpload, multerProcess, respondUpload, hgt]
  · simp [postUpload, multerProcess, respondUpload, hgt]
  · simp [postUpload, multerProcess, respondUpload, hgt]
  · intro h36
    rw [mkFilename]
    by_cases he : extname o = ""
    · have h4 : (".mp4" : String).length = 4 := rfl
      simp only [he, if_true, String.length_append, h36, h4]
      omega
    · have h1 : 1 ≤ (extname o).length := one_le_length_of_ne_empty _ he
      simp only [he, if_false, String.length_append, h36]
      omega

/-- C7 (witness): a small valid upload is answered 200. -/
theorem c7_url_witness :
    (postUpload "w" ⟨some ⟨"a.mp4", "video/mp4", 10⟩, false, false⟩).status = 200 :=
  (c7_url_amended "w" "a.mp4" "video/mp4" 10 (by decide)).1

/-- C8 (confirmed): the sweep treats each directory entry independently — the
action taken for any one entry, failing or not, splices into the sweep of the
whole snapshot without affecting the others, the sweep yields one action per
entry of the snapshot (it is a total function: no per-entry failure aborts
it), a failed stat maps to the skip action, and a failed unlink of an expired
entry maps to the unlink-failure action without touching the rest. -/
theorem c8_sweep_isolation : ∀ (now : Int) (pre post : List DirEntry) (e : DirEntry)
    (entries : List DirEntry),
    (sweepActions now (pre ++ e :: post)
      = sweepActions now pre ++ processEntry now e :: sweepActions now post) ∧
    ((sweepActions now entries).length = entries.length) ∧
    (∀ (nm : String) (u : Bool), processEntry now ⟨nm, none, u⟩ = .statFailedSkip) ∧
    (∀ (nm : String) (m : Int), now - m > MAX_AGE →
        processEntry now ⟨nm, some m, false⟩ = .unlinkFailed) := by
  intro now pre post e entries
  refine ⟨?_, ?_, ?_, ?_⟩
  · simp [sweepActions]
  · simp [sweepActions]
  · intro nm u; rfl
  · intro nm m h; simp [processEntry, h]

/-- C8 (witness): an entry whose stat fails is skipped. -/
theorem c8_sweep_witness : processEntry 0 ⟨"x", none, true⟩ = .statFailedSkip :=
  (c8_sweep_isolation 0 [] [] ⟨"x", none, true⟩ []).2.2.1 "x" true

/-- C9 (confirmed): the stored name is the minted uuid plus the original
filename's extension when `path.extname` finds one, and the fixed fallback
`.mp4` when it does not. -/
theorem c9_extension : ∀ uuid o : String,
    (extname o = "" → mkFilename uuid o = uuid ++ ".mp4") ∧
    (extname o ≠ "" → mkFilename uuid o = uuid ++ extname o) := by
  intro uuid o
  constructor <;> intro h <;> simp [mkFilename, h]

/-- C9 (witness): an extensionless original falls back to `.mp4`, one with an
extension keeps it. -/
theorem c9_extension_witness :
    mkFilename "u" "clip" = "u" ++ ".mp4" ∧
    mkFilename "u" "a.mov" = "u" ++ extname "a.mov" :=
  ⟨(c9_extension "u" "clip").1 (by decide), (c9_extension "u" "a.mov").2 (by decide)⟩

/-- C10 (confirmed): with stat and unlink succeeding, a sweep at time `now`
deletes an entry exactly when `now` minus the entry's `mtimeMs` strictly
exceeds 3,600,000 ms; the cutoff `MAX_AGE` is 3,600,000 ms, and the age is
computed from the modification time the stat reports, so a later modification
(a larger `mtimeMs`) restarts the expiry clock. -/
theorem c10_mtime_cutoff : ∀ (now m : Int) (nm : String),
    (processEntry now ⟨nm, some m, true⟩ = .deleted ↔ now - m > 3600000) ∧
    MAX_AGE = 3600000 := by
  intro now m nm
  have hMA : MAX_AGE = 3600000 := by norm_num [MAX_AGE]
  refine ⟨?_, hMA⟩
  by_cases h : now - m > MAX_AGE
  · rw [hMA] at h
    simp [processEntry, hMA, h]
  · rw [hMA] at h
    simp [processEntry, hMA, h]

end VidBeamer
